import Mathlib

/-!
Verification of the goal-execution core of an SDM (software delivery machine)
continuous-delivery orchestrator, as a shallow embedding in Lean 4.

Embedded components (with their TypeScript sources):
- the build-identifier allocator `LocalBuilder.obtainBuildIdentifier` and the
  build lifecycle `LocalBuilder.initiateBuild` / `LocalBuilder.onExit`
  (githubStatusSummarySupport.ts);
- the docker build pipeline `executeDockerBuild` (docker build executor);
- the versioner `NodeProjectVersioner` (nodeProjectVersioner.ts);
- the fingerprinting step `executeFingerprinting` (executeFingerprinting.ts);
- the tagging step `executeTag` (executeTag.ts).

Effectful collaborator calls (subprocesses, webhooks, status updates, the
graph query) are embedded as environment records carrying each call's
outcome; a JavaScript promise rejection is an `Except.error`.  Machine
integers do not arise: exit codes are modelled as `Int`, and the identifier
arithmetic of the allocator is on `Nat` (decimal strings).
-/

/-! ### Decimal strings

The allocator stores its counter as a decimal string and bumps it with
JavaScript numeric coercion (`(+identifier + 1).toString()`).  We prove the
`Nat.repr` / `String.toNat?` roundtrip needed to reason about that.
-/

/-- Decimal digit list of a natural number, most significant digit first. -/
def decDigits (n : Nat) : List Char :=
  if n < 10 then [Nat.digitChar n]
  else decDigits (n / 10) ++ [Nat.digitChar (n % 10)]
decreasing_by
  rename_i h
  exact Nat.div_lt_self (by omega) (by omega)

theorem toDigitsCore_eq_decDigits (fuel : Nat) :
    ∀ (n : Nat) (acc : List Char), n < fuel →
      Nat.toDigitsCore 10 fuel n acc = decDigits n ++ acc := by
  induction fuel with
  | zero => intro n acc h; omega
  | succ f ih =>
    intro n acc h
    by_cases h10 : n < 10
    · have hdiv : n / 10 = 0 := by omega
      have hmod : n % 10 = n := by omega
      simp [Nat.toDigitsCore, hdiv, decDigits, h10, hmod]
    · have hdiv : n / 10 ≠ 0 := by omega
      have hlt : n / 10 < f := by omega
      rw [decDigits]
      simp only [h10, if_false]
      simp [Nat.toDigitsCore, hdiv, ih (n / 10) _ hlt]

theorem digitChar_isDigit (m : Nat) (h : m < 10) : (Nat.digitChar m).isDigit = true := by
  interval_cases m <;> decide

theorem digitChar_toNat (m : Nat) (h : m < 10) : (Nat.digitChar m).toNat - 48 = m := by
  interval_cases m <;> decide

theorem decDigits_ne_nil (n : Nat) : decDigits n ≠ [] := by
  rw [decDigits]
  by_cases h : n < 10 <;> simp [h]

theorem decDigits_isDigit (n : Nat) : ∀ c ∈ decDigits n, c.isDigit = true := by
  induction n using Nat.strong_induction_on with
  | _ n ih =>
    rw [decDigits]
    by_cases h : n < 10
    · simp only [h, if_true, List.mem_singleton]
      intro c hc; subst hc; exact digitChar_isDigit n h
    · simp only [h, if_false]
      intro c hc
      rcases List.mem_append.mp hc with h1 | h2
      · exact ih (n / 10) (Nat.div_lt_self (by omega) (by omega)) c h1
      · rw [List.mem_singleton.mp h2]
        exact digitChar_isDigit (n % 10) (by omega)

theorem foldl_decDigits (n : Nat) :
    ∀ a : Nat, List.foldl (fun acc c => acc * 10 + (c.toNat - 48)) a (decDigits n)
      = a * 10 ^ (decDigits n).length + n := by
  induction n using Nat.strong_induction_on with
  | _ n ih =>
    intro a
    rw [decDigits]
    by_cases h : n < 10
    · simp only [h, if_true, List.foldl_cons, List.foldl_nil, List.length_singleton]
      rw [digitChar_toNat n h, pow_one]
    · simp only [h, if_false, List.foldl_append, List.foldl_cons, List.foldl_nil,
        List.length_append, List.length_singleton]
      rw [ih (n / 10) (Nat.div_lt_self (by omega) (by omega)) a]
      rw [digitChar_toNat (n % 10) (by omega)]
      rw [pow_succ, ← Nat.mul_assoc]
      generalize a * 10 ^ (decDigits (n / 10)).length = Y
      omega

theorem repr_eq_decDigits (n : Nat) : Nat.repr n = (decDigits n).asString := by
  rw [Nat.repr, Nat.toDigits, toDigitsCore_eq_decDigits (n + 1) n [] (Nat.lt_succ_self n)]
  simp

theorem data_asString (l : List Char) : (List.asString l).data = l := rfl

theorem repr_isNat (n : Nat) : (Nat.repr n).isNat = true := by
  rw [String.isNat, repr_eq_decDigits]
  rw [Bool.and_eq_true, Bool.not_eq_true']
  apply And.intro
  · rw [Bool.eq_false_iff]
    intro hempty
    have : (decDigits n) = [] := by
      have := congrArg String.data ((String.isEmpty_iff _).mp hempty)
      simpa [data_asString] using this
    exact decDigits_ne_nil n this
  · rw [String.all_eq, data_asString, List.all_eq_true]
    intro c hc
    exact decDigits_isDigit n c hc

theorem toNat?_repr (n : Nat) : (Nat.repr n).toNat? = some n := by
  rw [String.toNat?, if_pos (repr_isNat n)]
  congr 1
  rw [repr_eq_decDigits, String.foldl_eq, data_asString]
  have h48 : ('0' : Char).toNat = 48 := rfl
  simp only [h48]
  rw [foldl_decDigits n 0]
  omega

theorem repr_ne_of_ne {a b : Nat} (h : a ≠ b) : Nat.repr a ≠ Nat.repr b := by
  intro he
  apply h
  have := congrArg String.toNat? he
  rw [toNat?_repr, toNat?_repr] at this
  exact Option.some_injective _ this

/-! ### Build-identifier allocator

`LocalBuilder.obtainBuildIdentifier` (githubStatusSummarySupport.ts, lines
218-250): query the persisted `SdmBuildIdentifier` records for the pushed
repository's (owner, name, providerId); if exactly one record exists use it,
otherwise fall back to a fresh record with identifier "0"; bump the numeric
value of the identifier by 1, persist the bumped record, and return its
identifier string.
-/

structure RepoKey where
  owner : String
  name : String
  providerId : String
deriving DecidableEq

structure SdmBuildIdentifier where
  identifier : String
  repo : RepoKey
deriving DecidableEq

/-- JavaScript numeric coercion of an identifier string, as used by
`+buildIdentifier.identifier`.  A non-numeric string coerces to NaN,
modelled as `none`; negative or fractional strings never occur in this
store and are out of scope. -/
def jsCoerceNat (s : String) : Option Nat := s.toNat?

/-- The bump `(+buildIdentifier.identifier + 1).toString()`. -/
def bumpIdentifierString (s : String) : String :=
  match jsCoerceNat s with
  | some v => Nat.repr (v + 1)
  | none => "NaN"

/-- Lines 230-249: choose the single existing record (fall back to
identifier "0" keyed by the push when the query does not return exactly one
record), bump it, and return the bumped identifier together with the bumped
record that is sent to the store. -/
def obtainBuildIdentifier (push : RepoKey) (queryResult : List SdmBuildIdentifier) :
    String × SdmBuildIdentifier :=
  let buildIdentifier :=
    match queryResult with
    | [b] => b
    | _ => { identifier := "0", repo := push }
  let bumped : SdmBuildIdentifier :=
    { buildIdentifier with identifier := bumpIdentifierString buildIdentifier.identifier }
  (bumped.identifier, bumped)

/-- Modelled from the spec: the persistence backend behind
`ctx.messageClient.send(bumpedBuildIdentifier, addressEvent("SdmBuildIdentifier"))`
is not part of this repository.  Per the spec (one logical record per
repository key; the write lands before the identifier is handed out),
sending the bumped record replaces the stored record for its key. -/
def persistBuildIdentifier (_store : List SdmBuildIdentifier) (b : SdmBuildIdentifier) :
    List SdmBuildIdentifier := [b]

/-- One allocator call against a per-repository store: query, bump, persist,
return the new identifier and the new store. -/
def allocate (key : RepoKey) (store : List SdmBuildIdentifier) :
    String × List SdmBuildIdentifier :=
  let r := obtainBuildIdentifier key store
  (r.1, persistBuildIdentifier store r.2)

/-- The per-repository store after `n` allocator calls, starting from a
previously-unseen repository (empty store). -/
def allocStore (key : RepoKey) : Nat → List SdmBuildIdentifier
  | 0 => []
  | n + 1 => (allocate key (allocStore key n)).2

theorem jsCoerceNat_repr (n : Nat) : jsCoerceNat (Nat.repr n) = some n := toNat?_repr n

theorem bump_repr (n : Nat) : bumpIdentifierString (Nat.repr n) = Nat.repr (n + 1) := by
  simp [bumpIdentifierString, jsCoerceNat_repr]

theorem allocStore_eq (key : RepoKey) :
    ∀ n : Nat, allocStore key (n + 1) = [{ identifier := Nat.repr (n + 1), repo := key }] := by
  intro n
  induction n with
  | zero =>
    show (allocate key []).2 = _
    simp [allocate, obtainBuildIdentifier, persistBuildIdentifier]
    exact bump_repr 0
  | succ m ih =>
    show (allocate key (allocStore key (m + 1))).2 = _
    rw [ih]
    simp [allocate, obtainBuildIdentifier, persistBuildIdentifier, bump_repr]

theorem bump_zero_eq_one : bumpIdentifierString "0" = "1" := bump_repr 0

theorem allocate_single_numeric (key : RepoKey) (b : SdmBuildIdentifier) (v : Nat)
    (hv : jsCoerceNat b.identifier = some v) :
    allocate key [b] = (Nat.repr (v + 1), [{ b with identifier := Nat.repr (v + 1) }]) := by
  simp [allocate, obtainBuildIdentifier, persistBuildIdentifier, bumpIdentifierString, hv]

theorem allocate_fallback (key : RepoKey) (store : List SdmBuildIdentifier)
    (h : store.length ≠ 1) :
    allocate key store = (Nat.repr 1, [{ identifier := Nat.repr 1, repo := key }]) := by
  rcases store with _ | ⟨b, _ | ⟨b2, t⟩⟩
  · simp [allocate, obtainBuildIdentifier, persistBuildIdentifier]
    exact bump_repr 0
  · simp at h
  · simp [allocate, obtainBuildIdentifier, persistBuildIdentifier]
    exact bump_repr 0

/-- C1: for every repository key, an empty query result makes
`obtainBuildIdentifier` treat the previous value as 0 and return "1"; a
single record with numeric identifier v yields the string of v+1, with the
bumped record persisted before the identifier is returned; consequently the
(n+1)-st allocation for a previously-unseen repository returns the decimal
string of n+1, and two sequential allocations (from any store of numeric
records) never return the same identifier. -/
theorem obtainBuildIdentifier_allocation_protocol (key : RepoKey) :
    (obtainBuildIdentifier key []).1 = "1" ∧
    (∀ (v : Nat) (rec : SdmBuildIdentifier), rec.identifier = Nat.repr v →
        allocate key [rec]
          = (Nat.repr (v + 1), [{ rec with identifier := Nat.repr (v + 1) }])) ∧
    (∀ n : Nat, (allocate key (allocStore key n)).1 = Nat.repr (n + 1)) ∧
    (∀ store : List SdmBuildIdentifier,
        (∀ b ∈ store, (jsCoerceNat b.identifier).isSome = true) →
        (allocate key store).1 ≠ (allocate key (allocate key store).2).1) := by
  refine ⟨?_, ?_, ?_, ?_⟩
  · simp [obtainBuildIdentifier]
    exact bump_zero_eq_one
  · intro v rec h
    simp [allocate, obtainBuildIdentifier, persistBuildIdentifier, h, bump_repr]
  · intro n
    cases n with
    | zero =>
      show (allocate key []).1 = _
      simp [allocate, obtainBuildIdentifier, persistBuildIdentifier]
      exact bump_repr 0
    | succ m =>
      rw [allocStore_eq key m]
      simp [allocate, obtainBuildIdentifier, persistBuildIdentifier, bump_repr]
  · intro store hnum
    have step2 : ∀ (b : SdmBuildIdentifier) (v : Nat), jsCoerceNat b.identifier = some v →
        (allocate key [b]).1 ≠ (allocate key (allocate key [b]).2).1 := by
      intro b v hv
      rw [allocate_single_numeric key b v hv]
      show Nat.repr (v + 1)
        ≠ (allocate key [{ b with identifier := Nat.repr (v + 1) }]).1
      rw [allocate_single_numeric key _ (v + 1) (jsCoerceNat_repr (v + 1))]
      exact repr_ne_of_ne (by omega)
    have fallthrough : ∀ s : List SdmBuildIdentifier, s.length ≠ 1 →
        (allocate key s).1 ≠ (allocate key (allocate key s).2).1 := by
      intro s hs
      rw [allocate_fallback key s hs]
      show Nat.repr 1 ≠ (allocate key [{ identifier := Nat.repr 1, repo := key }]).1
      rw [allocate_single_numeric key _ 1 (jsCoerceNat_repr 1)]
      exact repr_ne_of_ne (by omega)
    rcases hshape : store with _ | ⟨b, _ | ⟨b2, t⟩⟩
    · exact fallthrough [] (by simp)
    · have hb : (jsCoerceNat b.identifier).isSome = true := hnum b (by rw [hshape]; simp)
      rcases Option.isSome_iff_exists.mp hb with ⟨v, hv⟩
      exact step2 b v hv
    · exact fallthrough (b :: b2 :: t) (by simp)

theorem obtainBuildIdentifier_allocation_protocol_witness :
    (obtainBuildIdentifier ⟨"own", "repo", "prov"⟩ []).1 = "1" ∧
    allocate ⟨"own", "repo", "prov"⟩ [⟨Nat.repr 5, ⟨"own", "repo", "prov"⟩⟩]
      = (Nat.repr 6, [⟨Nat.repr 6, ⟨"own", "repo", "prov"⟩⟩]) ∧
    (allocate ⟨"own", "repo", "prov"⟩ (allocStore ⟨"own", "repo", "prov"⟩ 2)).1 = Nat.repr 3 ∧
    (allocate ⟨"own", "repo", "prov"⟩ []).1
      ≠ (allocate ⟨"own", "repo", "prov"⟩ (allocate ⟨"own", "repo", "prov"⟩ []).2).1 := by
  have h := obtainBuildIdentifier_allocation_protocol ⟨"own", "repo", "prov"⟩
  refine ⟨h.1, h.2.1 5 ⟨Nat.repr 5, ⟨"own", "repo", "prov"⟩⟩ rfl, h.2.2.1 2, h.2.2.2 [] ?_⟩
  intro b hb
  exact absurd hb (List.not_mem_nil b)

/-- C10: whenever the persisted-state query returns a record list whose
length is not exactly one (in particular, two or more duplicate records),
`obtainBuildIdentifier` falls back to the previous identifier "0" and the
allocation returns "1": duplicates reset the counter instead of being
tie-broken by highest value. -/
theorem obtainBuildIdentifier_non_single_reset (key : RepoKey)
    (queryResult : List SdmBuildIdentifier) (h : queryResult.length ≠ 1) :
    obtainBuildIdentifier key queryResult = ("1", { identifier := "1", repo := key }) := by
  rcases queryResult with _ | ⟨b, _ | ⟨b2, t⟩⟩
  · simp [obtainBuildIdentifier, bump_zero_eq_one]
  · simp at h
  · simp [obtainBuildIdentifier, bump_zero_eq_one]

theorem obtainBuildIdentifier_non_single_reset_witness :
    obtainBuildIdentifier ⟨"own", "repo", "prov"⟩
        [⟨"4", ⟨"own", "repo", "prov"⟩⟩, ⟨"7", ⟨"own", "repo", "prov"⟩⟩]
      = ("1", { identifier := "1", repo := ⟨"own", "repo", "prov"⟩ }) :=
  obtainBuildIdentifier_non_single_reset _ _ (by decide)

/-! ### Node project versioner

`NodeProjectVersioner` (nodeProjectVersioner.ts, lines 21-41): read the
declared version from package.json, dot-normalize the push's branch,
compare the *normalized* branch against the repository's default branch to
decide the branch suffix, and append a `yyyymmddHHMMss` timestamp.  The
`npm --no-git-tag-version version` subprocess then persists the string; it
does not alter it.  The declared version, default branch and timestamp are
parameters here.
-/

/-- `sdmGoal.branch.split("/").join(".")` (line 24): with a single-character
separator this is exactly per-character replacement of '/' by '.'. -/
def dotNormalize (branch : String) : String :=
  ⟨branch.data.map (fun c => if c = '/' then '.' else c)⟩

/-- Lines 24-26: `${pj.version}-${branchSuffix}${timestamp}` where
`branchSuffix` is empty when the dot-normalized branch equals the default
branch and `${branch}.` (normalized) otherwise. -/
def NodeProjectVersioner (pjVersion branch defaultBranch timestamp : String) : String :=
  let branchDot := dotNormalize branch
  let branchSuffix := if branchDot ≠ defaultBranch then branchDot ++ "." else ""
  pjVersion ++ "-" ++ branchSuffix ++ timestamp

/-- C5 counterexample: a push on the repository's default branch
"release/2" (a branch name containing a slash) does NOT yield a version
without a branch suffix: the code compares the dot-normalized branch
"release.2" against the default branch "release/2", so the suffix
"release.2." is inserted even though the push is on the default branch. -/
theorem nodeProjectVersioner_default_branch_counterexample :
    NodeProjectVersioner "1.2.0" "release/2" "release/2" "20180101000000"
      = "1.2.0-release.2.20180101000000" ∧
    NodeProjectVersioner "1.2.0" "release/2" "release/2" "20180101000000"
      ≠ "1.2.0-" ++ "20180101000000" := by
  exact ⟨by decide, by decide⟩

/-- C5 (amended): the branch suffix is empty exactly when the
dot-normalized branch equals the repository's default branch: in that case
the version is `<declared>-<timestamp>` with no suffix segment, and
otherwise the version is `<declared>-<normalized-branch>.<timestamp>`, so
it contains the dot-normalized branch followed by "." as a literal
substring. -/
theorem nodeProjectVersioner_branch_suffix
    (pjVersion branch defaultBranch timestamp : String) :
    (dotNormalize branch = defaultBranch →
      NodeProjectVersioner pjVersion branch defaultBranch timestamp
        = pjVersion ++ "-" ++ timestamp) ∧
    (dotNormalize branch ≠ defaultBranch →
      NodeProjectVersioner pjVersion branch defaultBranch timestamp
        = (pjVersion ++ "-") ++ (dotNormalize branch ++ ".") ++ timestamp ∧
      ∃ pre post, NodeProjectVersioner pjVersion branch defaultBranch timestamp
        = pre ++ (dotNormalize branch ++ ".") ++ post) := by
  constructor
  · intro h
    simp [NodeProjectVersioner, h]
  · intro h
    constructor
    · simp [NodeProjectVersioner, h]
    · exact ⟨pjVersion ++ "-", timestamp, by simp [NodeProjectVersioner, h]⟩

theorem nodeProjectVersioner_branch_suffix_witness :
    NodeProjectVersioner "1.2.0" "main" "main" "20180101000000"
      = "1.2.0" ++ "-" ++ "20180101000000" ∧
    (∃ pre post, NodeProjectVersioner "1.2.0" "feature/x" "main" "20180101000000"
      = pre ++ ("feature.x" ++ ".") ++ post) := by
  constructor
  · exact (nodeProjectVersioner_branch_suffix "1.2.0" "main" "main" "20180101000000").1
      (by decide)
  · exact ((nodeProjectVersioner_branch_suffix "1.2.0" "feature/x" "main"
      "20180101000000").2 (by decide)).2

/-! ### Docker build pipeline

`executeDockerBuild` (docker build executor, lines 129-213): inside the
loaded project, run the preparation steps, aborting on the first non-zero
exit; build the docker login argument list; run docker login, docker build
and docker push in order, each spawned in the project root with
`errorFinder: code => code !== 0` and each aborting the pipeline by
returning its own result when its exit code is non-zero; finally post the
image-link webhook, returning the successful push result when the webhook
acknowledges and `{ code: 1, message: "Image link failed" }` when it
returns false.  Subprocess outcomes and the webhook acknowledgement are
environment parameters; exit codes are JavaScript numbers, modelled as
`Int`.
-/

structure ExecuteGoalResult where
  code : Int
  message : Option String
deriving DecidableEq

/-- The steps of the pipeline, in execution order: the i-th preparation,
docker login, docker build, docker push, and the image-link webhook. -/
inductive DStep where
  | preparation (i : Nat)
  | dockerLogin
  | dockerBuild
  | dockerPush
  | imageLink
deriving DecidableEq

/-- The test `/[^A-Za-z0-9]/.test(c)` on a single character. -/
def nonAlphanumeric (c : Char) : Bool :=
  !(('A' ≤ c && c ≤ 'Z') || ('a' ≤ c && c ≤ 'z') || ('0' ≤ c && c ≤ '9'))

/-- `/[^A-Za-z0-9]/.test(options.registry)` (line 154): does the registry
string contain any non-alphanumeric character? -/
def testNonAlphanumeric (s : String) : Bool := s.data.any nonAlphanumeric

/-- Lines 153-156: `["login", "--username", user, "--password", password]`,
with the registry appended as an explicit final argument exactly when the
registry string contains a non-alphanumeric character. -/
def loginArgs (user password registry : String) : List String :=
  let base := ["login", "--username", user, "--password", password]
  if testNonAlphanumeric registry then base ++ [registry] else base

structure DockerEnv where
  prepResults : List ExecuteGoalResult
  loginResult : ExecuteGoalResult
  buildResult : ExecuteGoalResult
  pushResult : ExecuteGoalResult
  webhookOk : Bool

/-- Lines 134-139: run the preparations in order with `await
preparation(p, goalInvocation)`, returning the first result whose code is
non-zero; the trace records which preparations ran (the first component is
the aborting result, if any). -/
def runPreps : Nat → List ExecuteGoalResult → Option ExecuteGoalResult × List DStep
  | _, [] => (none, [])
  | i, r :: rest =>
    if r.code ≠ 0 then (some r, [DStep.preparation i])
    else
      let rec' := runPreps (i + 1) rest
      (rec'.1, DStep.preparation i :: rec'.2)

/-- Lines 129-212: the pipeline.  Returns the final `ExecuteGoalResult`
together with the trace of steps that actually executed. -/
def executeDockerBuild (env : DockerEnv) : ExecuteGoalResult × List DStep :=
  match runPreps 0 env.prepResults with
  | (some r, t) => (r, t)
  | (none, t) =>
    let t1 := t ++ [DStep.dockerLogin]
    if env.loginResult.code ≠ 0 then (env.loginResult, t1)
    else
      let t2 := t1 ++ [DStep.dockerBuild]
      if env.buildResult.code ≠ 0 then (env.buildResult, t2)
      else
        let t3 := t2 ++ [DStep.dockerPush]
        if env.pushResult.code ≠ 0 then (env.pushResult, t3)
        else
          let t4 := t3 ++ [DStep.imageLink]
          if env.webhookOk then (env.pushResult, t4)
          else ({ code := 1, message := some "Image link failed" }, t4)

/-- The result a step would report, when it has one: the i-th preparation's
result, and the spawned docker login / build / push results.  The webhook
returns a boolean acknowledgement, not an `ExecuteGoalResult`. -/
def stepResult (env : DockerEnv) : DStep → Option ExecuteGoalResult
  | DStep.preparation i => env.prepResults.get? i
  | DStep.dockerLogin => some env.loginResult
  | DStep.dockerBuild => some env.buildResult
  | DStep.dockerPush => some env.pushResult
  | DStep.imageLink => none

def stepStage : DStep → Nat
  | DStep.preparation _ => 0
  | DStep.dockerLogin => 1
  | DStep.dockerBuild => 2
  | DStep.dockerPush => 3
  | DStep.imageLink => 4

def prepIndex : DStep → Nat
  | DStep.preparation i => i
  | _ => 0

/-- `t` comes strictly after `s` in pipeline order. -/
def laterStep (s t : DStep) : Prop :=
  stepStage s < stepStage t ∨ (stepStage s = stepStage t ∧ prepIndex s < prepIndex t)

instance (s t : DStep) : Decidable (laterStep s t) := by
  unfold laterStep
  infer_instance

theorem map_prep_range_succ (i n : Nat) :
    DStep.preparation i :: (List.range n).map (fun j => DStep.preparation (i + 1 + j))
      = (List.range (n + 1)).map (fun j => DStep.preparation (i + j)) := by
  rw [List.range_succ_eq_map, List.map_cons, List.map_map]
  have hfe : ((fun j => DStep.preparation (i + j)) ∘ Nat.succ)
      = (fun j => DStep.preparation (i + 1 + j)) := by
    funext j
    have hj : i + (j + 1) = i + 1 + j := by omega
    simp [Function.comp, hj]
  simp [hfe]

theorem runPreps_some_char :
    ∀ (rs : List ExecuteGoalResult) (i : Nat) (r0 : ExecuteGoalResult) (t0 : List DStep),
      runPreps i rs = (some r0, t0) →
      ∃ k, k < rs.length ∧ rs.get? k = some r0 ∧ r0.code ≠ 0 ∧
        (∀ m, m < k → ∀ rm, rs.get? m = some rm → rm.code = 0) ∧
        t0 = (List.range (k + 1)).map (fun j => DStep.preparation (i + j)) := by
  intro rs
  induction rs with
  | nil => intro i r0 t0 h; simp [runPreps] at h
  | cons r rest ih =>
    intro i r0 t0 h
    simp only [runPreps] at h
    by_cases hc : r.code ≠ 0
    · rw [if_pos hc] at h
      simp only [Prod.mk.injEq] at h
      obtain ⟨h1, h2⟩ := h
      refine ⟨0, by simp, ?_, ?_, ?_, ?_⟩
      · simp [← Option.some_injective _ h1]
      · rw [← Option.some_injective _ h1]; exact hc
      · intro m hm; omega
      · rw [← h2]; simpa using map_prep_range_succ i 0
    · rw [if_neg hc] at h
      cases hrec : runPreps (i + 1) rest with
      | mk o t' =>
        rw [hrec] at h
        simp only [Prod.mk.injEq] at h
        obtain ⟨h1, h2⟩ := h
        obtain ⟨k', hk', hget', hcode', hprev', ht'⟩ := ih (i + 1) r0 t' (by rw [hrec, h1])
        refine ⟨k' + 1, by simpa using hk', by simpa using hget', hcode', ?_, ?_⟩
        · intro m hm rm hget
          cases m with
          | zero =>
            simp at hget
            rw [← hget]
            omega
          | succ m' =>
            exact hprev' m' (by omega) rm (by simpa using hget)
        · rw [← h2, ht']
          exact map_prep_range_succ i (k' + 1)

theorem runPreps_none_char :
    ∀ (rs : List ExecuteGoalResult) (i : Nat) (t0 : List DStep),
      runPreps i rs = (none, t0) →
      (∀ m rm, rs.get? m = some rm → rm.code = 0) ∧
      t0 = (List.range rs.length).map (fun j => DStep.preparation (i + j)) := by
  intro rs
  induction rs with
  | nil =>
    intro i t0 h
    simp [runPreps] at h
    simp [h]
  | cons r rest ih =>
    intro i t0 h
    simp only [runPreps] at h
    by_cases hc : r.code ≠ 0
    · rw [if_pos hc] at h
      exact absurd (congrArg Prod.fst h) (by simp)
    · rw [if_neg hc] at h
      cases hrec : runPreps (i + 1) rest with
      | mk o t' =>
        rw [hrec] at h
        simp only [Prod.mk.injEq] at h
        obtain ⟨h1, h2⟩ := h
        obtain ⟨hall', ht'⟩ := ih (i + 1) t' (by rw [hrec, h1])
        constructor
        · intro m rm hget
          cases m with
          | zero =>
            simp at hget
            rw [← hget]
            omega
          | succ m' =>
            exact hall' m' rm (by simpa using hget)
        · rw [← h2, ht', List.length_cons]
          exact map_prep_range_succ i rest.length

/-- C2: in `executeDockerBuild`, whenever a preparation, docker login,
docker build or docker push step executed and returned a non-zero exit
code, that step's result is the pipeline's final result and no step later
in the pipeline order executed. -/
theorem executeDockerBuild_short_circuit (env : DockerEnv) (s : DStep)
    (r : ExecuteGoalResult) (hmem : s ∈ (executeDockerBuild env).2)
    (hres : stepResult env s = some r) (hcode : r.code ≠ 0) :
    (executeDockerBuild env).1 = r ∧
    ∀ t, laterStep s t → t ∉ (executeDockerBuild env).2 := by
  cases hrp : runPreps 0 env.prepResults with
  | mk o tp =>
    cases o with
    | some r0 =>
      obtain ⟨k, hk, hget, hkcode, hprev, ht⟩ := runPreps_some_char _ _ _ _ hrp
      have hx1 : (executeDockerBuild env).1 = r0 := by simp [executeDockerBuild, hrp]
      have hx2 : (executeDockerBuild env).2 = tp := by simp [executeDockerBuild, hrp]
      rw [hx2, ht] at hmem
      rcases List.mem_map.mp hmem with ⟨j, hjr, hs⟩
      have hjk : j < k + 1 := List.mem_range.mp hjr
      subst hs
      simp only [stepResult, Nat.zero_add] at hres
      have hjeq : j = k := by
        by_contra hne
        exact hcode (hprev j (by omega) r hres)
      subst hjeq
      have hr0 : r0 = r := by
        have := hget.symm.trans hres
        exact Option.some_injective _ this
      constructor
      · rw [hx1, hr0]
      · intro t hlt hmem'
        rw [hx2, ht] at hmem'
        rcases List.mem_map.mp hmem' with ⟨j', hj'r, hs'⟩
        have hj' : j' < j + 1 := List.mem_range.mp hj'r
        subst hs'
        simp only [laterStep, stepStage, prepIndex, Nat.zero_add] at hlt
        omega
    | none =>
      obtain ⟨hall, ht⟩ := runPreps_none_char _ _ _ hrp
      have hprepzero : ∀ (j : Nat) (r' : ExecuteGoalResult),
          stepResult env (DStep.preparation j) = some r' → r'.code = 0 := by
        intro j r' hres'
        simp only [stepResult] at hres'
        exact hall j r' hres'
      by_cases hl : env.loginResult.code ≠ 0
      · have hx1 : (executeDockerBuild env).1 = env.loginResult := by
          simp [executeDockerBuild, hrp, hl]
        have hx2 : (executeDockerBuild env).2 = tp ++ [DStep.dockerLogin] := by
          simp [executeDockerBuild, hrp, hl]
        rw [hx2] at hmem
        rcases List.mem_append.mp hmem with hA | hB
        · rw [ht] at hA
          rcases List.mem_map.mp hA with ⟨j, hjr, hs⟩
          subst hs
          exact absurd (hprepzero _ r hres) hcode
        · rw [List.mem_singleton.mp hB] at hres ⊢
          simp only [stepResult] at hres
          have hr : env.loginResult = r := Option.some_injective _ hres
          refine ⟨by rw [hx1, hr], ?_⟩
          intro t hlt hmem'
          rw [hx2] at hmem'
          rcases List.mem_append.mp hmem' with hA' | hB'
          · rw [ht] at hA'
            rcases List.mem_map.mp hA' with ⟨j', hj'r, hs'⟩
            subst hs'
            simp [laterStep, stepStage, prepIndex] at hlt
          · rw [List.mem_singleton.mp hB'] at hlt
            simp [laterStep, stepStage, prepIndex] at hlt
      · by_cases hb : env.buildResult.code ≠ 0
        · have hx1 : (executeDockerBuild env).1 = env.buildResult := by
            simp [executeDockerBuild, hrp, hl, hb]
          have hx2 : (executeDockerBuild env).2
              = tp ++ [DStep.dockerLogin, DStep.dockerBuild] := by
            simp [executeDockerBuild, hrp, hl, hb]
          rw [hx2] at hmem
          rcases List.mem_append.mp hmem with hA | hB
          · rw [ht] at hA
            rcases List.mem_map.mp hA with ⟨j, hjr, hs⟩
            subst hs
            exact absurd (hprepzero _ r hres) hcode
          · have hs : s = DStep.dockerLogin ∨ s = DStep.dockerBuild := by
              simpa using hB
            rcases hs with hs | hs
            · rw [hs] at hres
              simp only [stepResult] at hres
              have : r.code = 0 := by
                rw [← Option.some_injective _ hres]
                omega
              exact absurd this hcode
            · rw [hs] at hres ⊢
              simp only [stepResult] at hres
              have hr : env.buildResult = r := Option.some_injective _ hres
              refine ⟨by rw [hx1, hr], ?_⟩
              intro t hlt hmem'
              rw [hx2] at hmem'
              rcases List.mem_append.mp hmem' with hA' | hB'
              · rw [ht] at hA'
                rcases List.mem_map.mp hA' with ⟨j', hj'r, hs'⟩
                subst hs'
                simp [laterStep, stepStage, prepIndex] at hlt
              · have ht' : t = DStep.dockerLogin ∨ t = DStep.dockerBuild := by
                  simpa using hB'
                rcases ht' with ht' | ht' <;> rw [ht'] at hlt <;>
                  simp [laterStep, stepStage, prepIndex] at hlt
        · by_cases hp : env.pushResult.code ≠ 0
          · have hx1 : (executeDockerBuild env).1 = env.pushResult := by
              simp [executeDockerBuild, hrp, hl, hb, hp]
            have hx2 : (executeDockerBuild env).2
                = tp ++ [DStep.dockerLogin, DStep.dockerBuild, DStep.dockerPush] := by
              simp [executeDockerBuild, hrp, hl, hb, hp]
            rw [hx2] at hmem
            rcases List.mem_append.mp hmem with hA | hB
            · rw [ht] at hA
              rcases List.mem_map.mp hA with ⟨j, hjr, hs⟩
              subst hs
              exact absurd (hprepzero _ r hres) hcode
            · have hs : s = DStep.dockerLogin ∨ s = DStep.dockerBuild
                  ∨ s = DStep.dockerPush := by
                simpa using hB
              have hzero : ∀ x : ExecuteGoalResult, x.code = 0 → some x = some r → False := by
                intro x hx hxr
                exact hcode (by rw [← Option.some_injective _ hxr]; exact hx)
              rcases hs with hs | hs | hs
              · rw [hs] at hres
                simp only [stepResult] at hres
                exact absurd (hzero env.loginResult (by omega) hres) not_false
              · rw [hs] at hres
                simp only [stepResult] at hres
                exact absurd (hzero env.buildResult (by omega) hres) not_false
              · rw [hs] at hres ⊢
                simp only [stepResult] at hres
                have hr : env.pushResult = r := Option.some_injective _ hres
                refine ⟨by rw [hx1, hr], ?_⟩
                intro t hlt hmem'
                rw [hx2] at hmem'
                rcases List.mem_append.mp hmem' with hA' | hB'
                · rw [ht] at hA'
                  rcases List.mem_map.mp hA' with ⟨j', hj'r, hs'⟩
                  subst hs'
                  simp [laterStep, stepStage, prepIndex] at hlt
                · have ht' : t = DStep.dockerLogin ∨ t = DStep.dockerBuild
                      ∨ t = DStep.dockerPush := by
                    simpa using hB'
                  rcases ht' with ht' | ht' | ht' <;> rw [ht'] at hlt <;>
                    simp [laterStep, stepStage, prepIndex] at hlt
          · have hx2 : (executeDockerBuild env).2
                = tp ++ [DStep.dockerLogin, DStep.dockerBuild, DStep.dockerPush,
                    DStep.imageLink] := by
              by_cases hw : env.webhookOk <;>
                simp [executeDockerBuild, hrp, hl, hb, hp, hw]
            rw [hx2] at hmem
            rcases List.mem_append.mp hmem with hA | hB
            · rw [ht] at hA
              rcases List.mem_map.mp hA with ⟨j, hjr, hs⟩
              subst hs
              exact absurd (hprepzero _ r hres) hcode
            · have hs : s = DStep.dockerLogin ∨ s = DStep.dockerBuild
                  ∨ s = DStep.dockerPush ∨ s = DStep.imageLink := by
                simpa using hB
              have hzero : ∀ x : ExecuteGoalResult, x.code = 0 → some x = some r → False := by
                intro x hx hxr
                exact hcode (by rw [← Option.some_injective _ hxr]; exact hx)
              rcases hs with hs | hs | hs | hs <;> rw [hs] at hres <;>
                simp only [stepResult] at hres
              · exact absurd (hzero env.loginResult (by omega) hres) not_false
              · exact absurd (hzero env.buildResult (by omega) hres) not_false
              · exact absurd (hzero env.pushResult (by omega) hres) not_false
              · exact Option.noConfusion hres

theorem executeDockerBuild_short_circuit_witness :
    (executeDockerBuild
        { prepResults := [{ code := 0, message := none }],
          loginResult := { code := 0, message := none },
          buildResult := { code := 2, message := some "boom" },
          pushResult := { code := 0, message := none },
          webhookOk := true }).1 = { code := 2, message := some "boom" } ∧
    DStep.dockerPush ∉ (executeDockerBuild
        { prepResults := [{ code := 0, message := none }],
          loginResult := { code := 0, message := none },
          buildResult := { code := 2, message := some "boom" },
          pushResult := { code := 0, message := none },
          webhookOk := true }).2 := by
  have h := executeDockerBuild_short_circuit
    { prepResults := [{ code := 0, message := none }],
      loginResult := { code := 0, message := none },
      buildResult := { code := 2, message := some "boom" },
      pushResult := { code := 0, message := none },
      webhookOk := true }
    DStep.dockerBuild { code := 2, message := some "boom" }
    (by decide) (by decide) (by decide)
  exact ⟨h.1, h.2 DStep.dockerPush (by decide)⟩

theorem runPreps_fst_none (rs : List ExecuteGoalResult) :
    ∀ i : Nat, (∀ r ∈ rs, r.code = 0) → (runPreps i rs).1 = none := by
  induction rs with
  | nil => intro i _; simp [runPreps]
  | cons r rest ih =>
    intro i h
    have hr : r.code = 0 := h r (by simp)
    simp only [runPreps, hr]
    simpa using ih (i + 1) (fun x hx => h x (by simp [hx]))

/-- C4: when every preparation and the docker login / build / push steps
all exit with code 0, the pipeline's final result is the (successful) push
result unchanged when the image-link webhook acknowledges with true, and a
failing result `{ code: 1, message: "Image link failed" }` when the webhook
returns false. -/
theorem executeDockerBuild_image_link (env : DockerEnv)
    (hpre : ∀ r ∈ env.prepResults, r.code = 0)
    (hl : env.loginResult.code = 0) (hb : env.buildResult.code = 0)
    (hp : env.pushResult.code = 0) :
    (executeDockerBuild env).1
      = if env.webhookOk then env.pushResult
        else { code := 1, message := some "Image link failed" } := by
  cases hrp : runPreps 0 env.prepResults with
  | mk o tp =>
    have ho : o = none := by
      have := runPreps_fst_none env.prepResults 0 hpre
      rw [hrp] at this
      exact this
    subst ho
    by_cases hw : env.webhookOk <;>
      simp [executeDockerBuild, hrp, hl, hb, hp, hw]

theorem executeDockerBuild_image_link_witness :
    (executeDockerBuild
        { prepResults := [], loginResult := { code := 0, message := none },
          buildResult := { code := 0, message := none },
          pushResult := { code := 0, message := some "pushed" },
          webhookOk := true }).1 = { code := 0, message := some "pushed" } ∧
    (executeDockerBuild
        { prepResults := [], loginResult := { code := 0, message := none },
          buildResult := { code := 0, message := none },
          pushResult := { code := 0, message := some "pushed" },
          webhookOk := false }).1 = { code := 1, message := some "Image link failed" } := by
  constructor
  · exact executeDockerBuild_image_link
      { prepResults := [], loginResult := { code := 0, message := none },
        buildResult := { code := 0, message := none },
        pushResult := { code := 0, message := some "pushed" },
        webhookOk := true }
      (by simp) (by decide) (by decide) (by decide)
  · exact executeDockerBuild_image_link
      { prepResults := [], loginResult := { code := 0, message := none },
        buildResult := { code := 0, message := none },
        pushResult := { code := 0, message := some "pushed" },
        webhookOk := false }
      (by simp) (by decide) (by decide) (by decide)

/-- C7 counterexample: the registry string "docker.io" contains '.', which
matches `/[^A-Za-z0-9]/`, so the docker login command INCLUDES the explicit
registry argument for "docker.io" — the claim's scenario (that "docker.io"
omits it) is false on the code. -/
theorem loginArgs_docker_io_counterexample :
    loginArgs "user" "pass" "docker.io"
      = ["login", "--username", "user", "--password", "pass", "docker.io"] := by
  decide

/-- C7 (amended): the docker login argument list contains the registry
string as an explicit final argument if and only if the registry string
contains at least one non-alphanumeric character; since "docker.io"
contains '.', it is included just like "my-registry.example.com:5000", and
only a purely alphanumeric registry string is omitted. -/
theorem loginArgs_registry_argument (user password registry : String) :
    (loginArgs user password registry
        = ["login", "--username", user, "--password", password, registry]
      ↔ testNonAlphanumeric registry = true) ∧
    (loginArgs user password registry
        = ["login", "--username", user, "--password", password]
      ↔ testNonAlphanumeric registry = false) := by
  unfold loginArgs
  by_cases h : testNonAlphanumeric registry <;> simp [h]

/-! ### Local build lifecycle

`LocalBuilder.initiateBuild` / `onStarted` / `onExit`
(githubStatusSummarySupport.ts, lines 118-216).  Each collaborator call is
an environment field holding its outcome; `Except.error` is a promise
rejection.  The trace records, in order, the externally visible build
events: every `updateBuildStatus` call (with its state and url), tag
creation, artifact linking, and the no-artifact warning.
-/

structure ChildProcessResult where
  error : Bool
  message : Option String
deriving DecidableEq

structure LocalBuildInProgress where
  url : String
  deploymentUnitFile : Option String
deriving DecidableEq

structure HandlerResult where
  code : Int
  message : Option String
deriving DecidableEq

/-- `Success` of the automation client: `{ code: 0 }`. -/
def SuccessResult : HandlerResult := { code := 0, message := none }

/-- `failure(err)`: a failing handler result wrapping the error message. -/
def failureResult (msg : String) : HandlerResult := { code := 1, message := some msg }

inductive BuildState where
  | started
  | failed
  | error
  | passed
  | canceled
deriving DecidableEq

inductive BuildEvent where
  | status (state : BuildState) (url : Option String)
  | tagCreated
  | artifactLinked
  | warnNoArtifact
deriving DecidableEq

structure LBEnv where
  buildNumber : String
  startBuild : Except String LocalBuildInProgress
  onStartedUpdate : Except String Unit
  buildResult : Except String ChildProcessResult
  exitUpdate : Except String Unit
  tagEnabled : Bool
  readVersion : Except String (Option String)
  createTagCall : Except String Unit
  storeFile : Except String String
  postWebhook : Except String Bool
  failedOnStartUpdate : Except String Unit

/-- `createBuildTag` (lines 252-268): when the `sdm.build.tag`
configuration (default true) is enabled, read the persisted SDM version and,
when one exists, create the tag `{version}+sdm.{buildNo}`. -/
def createBuildTag (env : LBEnv) : Except String Unit :=
  if env.tagEnabled then
    match env.readVersion with
    | Except.error e => Except.error e
    | Except.ok none => Except.ok ()
    | Except.ok (some _) => env.createTagCall
  else Except.ok ()

/-- `linkArtifact` (lines 271-274): store the deployment unit file, then
post the image-link webhook with the stored url. -/
def linkArtifact (env : LBEnv) : Except String Bool :=
  match env.storeFile with
  | Except.error e => Except.error e
  | Except.ok _ => env.postWebhook

/-- `onExit` (lines 193-216): on success, update status "passed", create
the build tag, and link the artifact when a deployment unit file exists
(warning otherwise); on failure, update status "failed".  The whole body is
wrapped in try/catch, so every collaborator error is swallowed (logged) and
`onExit` itself never rejects; the returned trace lists the events that
happened before any swallowed error. -/
def onExit (env : LBEnv) (success : Bool) (rb : LocalBuildInProgress) : List BuildEvent :=
  if success then
    BuildEvent.status BuildState.passed (some rb.url) ::
      (match env.exitUpdate with
       | Except.error _ => []
       | Except.ok _ =>
         match createBuildTag env with
         | Except.error _ => []
         | Except.ok _ =>
           BuildEvent.tagCreated ::
             (match rb.deploymentUnitFile with
              | some _ =>
                (match linkArtifact env with
                 | Except.error _ => []
                 | Except.ok _ => [BuildEvent.artifactLinked])
              | none => [BuildEvent.warnNoArtifact]))
  else
    [BuildEvent.status BuildState.failed (some rb.url)]

/-- `initiateBuild` (lines 118-169): start the build; report "started"; on
the backend's resolved result report via `onExit` and return
`{ code: 1, message }` on a build error and `Success` otherwise; when
awaiting the result rejects, run `onExit` with failure and return
`failure(err)`; when starting (or the "started" update) rejects, report
status "failed" with url undefined and return `failure(err)`.  The first
component is the promise outcome of `initiateBuild` itself, the second the
trace of build events. -/
def initiateBuild (env : LBEnv) : Except String HandlerResult × List BuildEvent :=
  match env.startBuild with
  | Except.error err =>
    let t := [BuildEvent.status BuildState.failed none]
    match env.failedOnStartUpdate with
    | Except.ok _ => (Except.ok (failureResult err), t)
    | Except.error e2 => (Except.error e2, t)
  | Except.ok rb =>
    let t0 := [BuildEvent.status BuildState.started (some rb.url)]
    match env.onStartedUpdate with
    | Except.error err =>
      let t := t0 ++ [BuildEvent.status BuildState.failed none]
      match env.failedOnStartUpdate with
      | Except.ok _ => (Except.ok (failureResult err), t)
      | Except.error e2 => (Except.error e2, t)
    | Except.ok _ =>
      match env.buildResult with
      | Except.ok br =>
        let t := t0 ++ onExit env (!br.error) rb
        ((if br.error then Except.ok { code := 1, message := br.message }
          else Except.ok SuccessResult), t)
      | Except.error err =>
        let t := t0 ++ onExit env false rb
        (Except.ok (failureResult err), t)

/-- C3: for every build whose backend result reports no error, `initiateBuild`
returns `Success` (code 0); the environment quantifies over ALL outcomes of
the status update, tag-creation and artifact-link calls inside `onExit`, so
any exception of those steps (caught inside `onExit`) never changes the
already-successful build result. -/
theorem initiateBuild_success_not_downgraded (env : LBEnv)
    (rb : LocalBuildInProgress) (br : ChildProcessResult)
    (h1 : env.startBuild = Except.ok rb)
    (h2 : env.onStartedUpdate = Except.ok ())
    (h3 : env.buildResult = Except.ok br)
    (h4 : br.error = false) :
    (initiateBuild env).1 = Except.ok SuccessResult := by
  simp [initiateBuild, h1, h2, h3, h4]

theorem initiateBuild_success_not_downgraded_witness :
    (initiateBuild
      { buildNumber := "1",
        startBuild := Except.ok { url := "http://build/1", deploymentUnitFile := some "target/app.jar" },
        onStartedUpdate := Except.ok (),
        buildResult := Except.ok { error := false, message := some "ok" },
        exitUpdate := Except.ok (),
        tagEnabled := true,
        readVersion := Except.ok (some "1.0.0"),
        createTagCall := Except.error "tag creation failed",
        storeFile := Except.error "artifact store down",
        postWebhook := Except.ok true,
        failedOnStartUpdate := Except.ok () }).1 = Except.ok SuccessResult :=
  initiateBuild_success_not_downgraded _ _ _ rfl rfl rfl rfl

/-- C6: when `startBuild` rejects, exactly one status update is issued, it
has state "failed" with url undefined, no "started" or "passed" update is
issued, and a failing result is returned immediately. -/
theorem initiateBuild_start_failure_single_status (env : LBEnv) (err : String)
    (h1 : env.startBuild = Except.error err)
    (h2 : env.failedOnStartUpdate = Except.ok ()) :
    initiateBuild env
      = (Except.ok (failureResult err), [BuildEvent.status BuildState.failed none]) := by
  simp [initiateBuild, h1, h2]

theorem initiateBuild_start_failure_single_status_witness :
    initiateBuild
      { buildNumber := "1",
        startBuild := Except.error "cannot spawn build",
        onStartedUpdate := Except.ok (),
        buildResult := Except.ok { error := false, message := none },
        exitUpdate := Except.ok (),
        tagEnabled := true,
        readVersion := Except.ok none,
        createTagCall := Except.ok (),
        storeFile := Except.ok "http://artifact",
        postWebhook := Except.ok true,
        failedOnStartUpdate := Except.ok () }
      = (Except.ok (failureResult "cannot spawn build"),
         [BuildEvent.status BuildState.failed none]) :=
  initiateBuild_start_failure_single_status _ _ rfl rfl

/-! ### Fingerprinting step

`executeFingerprinting` (executeFingerprinting.ts, lines 37-64): return
`Success` immediately when no fingerprinters are registered; otherwise
filter the registrations down to the ones relevant to the push, compute all
their fingerprints, and notify every listener of every fingerprint via
`Promise.all(listeners.map(l => Promise.all(fingerprints.map(f => l(...)))))`.
All listener invocations are created eagerly by `map` before any rejection
is observed, so the set of issued calls does not depend on any call's
outcome; a rejection rejects the surrounding `Promise.all` (and the step),
but does not retract the other calls.  Listeners are identified by index.
-/

structure Fingerprint where
  name : String
  sha : String
deriving DecidableEq

structure FingerprinterRegistration where
  relevant : Bool
  fingerprints : List Fingerprint
deriving DecidableEq

structure FingerprintEnv where
  fingerprinters : List FingerprinterRegistration
  listeners : List Nat
  listenerOutcome : Nat → Fingerprint → Except String Unit

/-- `relevantCodeActions(fingerprinters, cri)`: the registrations whose
push test accepts the current push. -/
def relevantFingerprinters (env : FingerprintEnv) : List FingerprinterRegistration :=
  env.fingerprinters.filter (fun fp => fp.relevant)

/-- `computeFingerprints(cri, relevantFingerprinters.map(fp => fp.action))`:
all fingerprints produced by the relevant registrations. -/
def computedFingerprints (env : FingerprintEnv) : List Fingerprint :=
  ((relevantFingerprinters env).map (fun fp => fp.fingerprints)).flatten

/-- The (listener, fingerprint) calls issued by the nested `map`s (lines
53-60), in issue order.  This list is built before any outcome resolves. -/
def listenerCalls (env : FingerprintEnv) : List (Nat × Fingerprint) :=
  env.listeners.flatMap (fun l => (computedFingerprints env).map (fun f => (l, f)))

/-- Lines 40-63: the step, returning its promise outcome together with the
issued (listener, fingerprint) calls. -/
def executeFingerprinting (env : FingerprintEnv) :
    Except String HandlerResult × List (Nat × Fingerprint) :=
  if env.fingerprinters.length = 0 then (Except.ok SuccessResult, [])
  else
    let calls := listenerCalls env
    let res :=
      if calls.all (fun c =>
          match env.listenerOutcome c.1 c.2 with
          | Except.ok _ => true
          | Except.error _ => false)
      then Except.ok SuccessResult
      else Except.error "listener rejected"
    (res, calls)

/-- C8: every (listener, fingerprint) pair is notified: each registered
listener is called with each computed fingerprint, and the set of issued
calls is independent of the listeners' outcomes, so one listener's
rejection does not prevent delivery of the remaining notifications. -/
theorem executeFingerprinting_notifies_all (env : FingerprintEnv)
    (l : Nat) (f : Fingerprint)
    (hl : l ∈ env.listeners) (hf : f ∈ computedFingerprints env) :
    (l, f) ∈ (executeFingerprinting env).2 ∧
    ∀ outcome : Nat → Fingerprint → Except String Unit,
      (executeFingerprinting { env with listenerOutcome := outcome }).2
        = (executeFingerprinting env).2 := by
  have hne : ¬ env.fingerprinters.length = 0 := by
    intro h0
    rw [List.length_eq_zero] at h0
    simp [computedFingerprints, relevantFingerprinters, h0] at hf
  constructor
  · simp only [executeFingerprinting, hne, if_false]
    exact List.mem_flatMap.mpr ⟨l, hl, List.mem_map.mpr ⟨f, hf, rfl⟩⟩
  · intro outcome
    simp [executeFingerprinting, hne, listenerCalls, computedFingerprints,
      relevantFingerprinters]

theorem executeFingerprinting_notifies_all_witness :
    (1, { name := "deps", sha := "abc" }) ∈ (executeFingerprinting
      { fingerprinters :=
          [{ relevant := true, fingerprints := [{ name := "deps", sha := "abc" }] },
           { relevant := false, fingerprints := [{ name := "skip", sha := "zzz" }] }],
        listeners := [0, 1],
        listenerOutcome := fun _ _ => Except.error "listener down" }).2 ∧
    (executeFingerprinting
      { fingerprinters :=
          [{ relevant := true, fingerprints := [{ name := "deps", sha := "abc" }] },
           { relevant := false, fingerprints := [{ name := "skip", sha := "zzz" }] }],
        listeners := [0, 1],
        listenerOutcome := fun _ _ => Except.ok () }).2
      = (executeFingerprinting
      { fingerprinters :=
          [{ relevant := true, fingerprints := [{ name := "deps", sha := "abc" }] },
           { relevant := false, fingerprints := [{ name := "skip", sha := "zzz" }] }],
        listeners := [0, 1],
        listenerOutcome := fun _ _ => Except.error "listener down" }).2 := by
  have h := executeFingerprinting_notifies_all
    { fingerprinters :=
        [{ relevant := true, fingerprints := [{ name := "deps", sha := "abc" }] },
         { relevant := false, fingerprints := [{ name := "skip", sha := "zzz" }] }],
      listeners := [0, 1],
      listenerOutcome := fun _ _ => Except.error "listener down" }
    1 { name := "deps", sha := "abc" } (by decide) (by decide)
  exact ⟨h.1, h.2 (fun _ _ => Except.ok ())⟩

/-! ### Tagging step

`executeTag` (executeTag.ts, lines 34-69): read the persisted SDM version
for the commit, then `createTagForStatus`: create the tag object and its
reference via the source-control collaborator, and return `Success`.  There
is no try/catch anywhere in the step, so a rejection of any collaborator
call escapes as the step's own rejection.
-/

structure TagEnv where
  version : Except String String
  createTag : Except String Unit
  createTagReference : Except String Unit

/-- `createTagForStatus` (lines 50-69): create the tag, then the tag
reference. -/
def createTagForStatus (env : TagEnv) : Except String Unit :=
  match env.createTag with
  | Except.error e => Except.error e
  | Except.ok _ => env.createTagReference

/-- Lines 34-48: read the version, create tag and reference, return
`Success`; rejections propagate. -/
def executeTag (env : TagEnv) : Except String HandlerResult :=
  match env.version with
  | Except.error e => Except.error e
  | Except.ok _ =>
    match createTagForStatus env with
    | Except.error e => Except.error e
    | Except.ok _ => Except.ok SuccessResult

/-! ### Docker pipeline with explicit rejections

For C9 the docker pipeline needs its rejection channel made explicit:
every `await`ed collaborator of `executeDockerBuild` (lines 129-213) — the
preparations, `imageNameCreator`, the dockerfile finder, the three
`spawnAndWatch` invocations and `postLinkImageWebhook` — returns a promise
that can also reject, and the function contains no catch, so the first
rejection encountered escapes as the step's own rejection.
`executeDockerBuildE` is the same pipeline as `executeDockerBuild` with
those outcomes as `Except` values; on environments where every collaborator
resolves it computes exactly the result of the trace-level model (proved
below). -/

/-- The `{ registry, name, version }` triple returned by
`imageNameCreator` (lines 149-150); it only feeds the image string and
never branches the control flow. -/
structure DockerImageName where
  registry : String
  name : String
  version : String

structure DockerEnvE where
  prepResults : List (Except String ExecuteGoalResult)
  imageName : Except String DockerImageName
  dockerfile : Except String String
  loginResult : Except String ExecuteGoalResult
  buildResult : Except String ExecuteGoalResult
  pushResult : Except String ExecuteGoalResult
  webhook : Except String Bool

/-- Lines 134-139 with rejections: a preparation's rejection escapes the
loop; a resolved non-zero result aborts it; otherwise the loop continues. -/
def runPrepsE : List (Except String ExecuteGoalResult) → Except String (Option ExecuteGoalResult)
  | [] => Except.ok none
  | p :: rest =>
    match p with
    | Except.error e => Except.error e
    | Except.ok r => if r.code ≠ 0 then Except.ok (some r) else runPrepsE rest

/-- Lines 129-213 with every collaborator rejection explicit; no catch
anywhere, so each `match` propagates a rejection unchanged. -/
def executeDockerBuildE (env : DockerEnvE) : Except String ExecuteGoalResult :=
  match runPrepsE env.prepResults with
  | Except.error e => Except.error e
  | Except.ok (some r) => Except.ok r
  | Except.ok none =>
    match env.imageName with
    | Except.error e => Except.error e
    | Except.ok _ =>
      match env.dockerfile with
      | Except.error e => Except.error e
      | Except.ok _ =>
        match env.loginResult with
        | Except.error e => Except.error e
        | Except.ok lr =>
          if lr.code ≠ 0 then Except.ok lr
          else
            match env.buildResult with
            | Except.error e => Except.error e
            | Except.ok br =>
              if br.code ≠ 0 then Except.ok br
              else
                match env.pushResult with
                | Except.error e => Except.error e
                | Except.ok pr =>
                  if pr.code ≠ 0 then Except.ok pr
                  else
                    match env.webhook with
                    | Except.error e => Except.error e
                    | Except.ok ack =>
                      if ack then Except.ok pr
                      else Except.ok { code := 1, message := some "Image link failed" }

/-- The docker environment in which every collaborator resolves. -/
def dockerResolvedEnv (preps : List ExecuteGoalResult) (im : DockerImageName)
    (df : String) (lr br pr : ExecuteGoalResult) (wh : Bool) : DockerEnvE :=
  { prepResults := preps.map Except.ok, imageName := Except.ok im,
    dockerfile := Except.ok df, loginResult := Except.ok lr,
    buildResult := Except.ok br, pushResult := Except.ok pr,
    webhook := Except.ok wh }

theorem runPrepsE_map_ok (preps : List ExecuteGoalResult) :
    ∀ i : Nat, runPrepsE (preps.map Except.ok) = Except.ok ((runPreps i preps).1) := by
  induction preps with
  | nil => intro i; simp [runPrepsE, runPreps]
  | cons r rest ih =>
    intro i
    by_cases h : r.code ≠ 0
    · simp [runPrepsE, runPreps, h]
    · simp [runPrepsE, runPreps, h, ih (i + 1)]

theorem executeDockerBuildE_agrees (preps : List ExecuteGoalResult)
    (im : DockerImageName) (df : String) (lr br pr : ExecuteGoalResult) (wh : Bool) :
    executeDockerBuildE (dockerResolvedEnv preps im df lr br pr wh)
      = Except.ok (executeDockerBuild
          { prepResults := preps, loginResult := lr, buildResult := br,
            pushResult := pr, webhookOk := wh }).1 := by
  cases hrp : runPreps 0 preps with
  | mk o t =>
    have hE : runPrepsE (preps.map Except.ok) = Except.ok o := by
      rw [runPrepsE_map_ok preps 0, hrp]
    cases o with
    | some r =>
      simp [executeDockerBuildE, dockerResolvedEnv, hE, executeDockerBuild, hrp]
    | none =>
      by_cases h1 : lr.code ≠ 0
      · simp [executeDockerBuildE, dockerResolvedEnv, hE, executeDockerBuild, hrp, h1]
      · by_cases h2 : br.code ≠ 0
        · simp [executeDockerBuildE, dockerResolvedEnv, hE, executeDockerBuild, hrp,
            h1, h2]
        · by_cases h3 : pr.code ≠ 0
          · simp [executeDockerBuildE, dockerResolvedEnv, hE, executeDockerBuild, hrp,
              h1, h2, h3]
          · by_cases h4 : wh
            · simp [executeDockerBuildE, dockerResolvedEnv, hE, executeDockerBuild, hrp,
                h1, h2, h3, h4]
            · simp [executeDockerBuildE, dockerResolvedEnv, hE, executeDockerBuild, hrp,
                h1, h2, h3, h4]

/-- C9 counterexample: in `executeTag`, a rejection of the tag-creation
collaborator escapes the step as a rejection instead of being mapped to a
failing `ExecuteGoalResult`: with the version read succeeding and
`createTag` rejecting with "boom", the step's promise rejects with "boom"
and no result value is produced. -/
theorem executeTag_rejection_escapes :
    executeTag { version := Except.ok "1.0.0", createTag := Except.error "boom",
                 createTagReference := Except.ok () } = Except.error "boom" := rfl

/-- C9 (amended): each of the three goal-execution steps returns exactly
one result on every path on which no collaborator call rejects: the
tagging step returns `Success` when version read, tag creation and
reference creation all resolve; the fingerprinting step resolves with
`Success` when every issued listener call resolves; and the docker
pipeline, when every collaborator resolves, resolves with exactly the one
result of the trace-level pipeline.  A collaborator rejection, however,
escapes the step as a rejection instead of being mapped to a failing
result: in the docker pipeline a rejection of the image-name computation
(after the preparations succeeded), or of the image-link webhook (after
login, build and push all exited 0), rejects the whole step with that
error. -/
theorem steps_single_result_when_no_rejection :
    (∀ (te : TagEnv) (v : String), te.version = Except.ok v →
        te.createTag = Except.ok () → te.createTagReference = Except.ok () →
        executeTag te = Except.ok SuccessResult) ∧
    (∀ fe : FingerprintEnv,
        (∀ c ∈ (executeFingerprinting fe).2, fe.listenerOutcome c.1 c.2 = Except.ok ()) →
        (executeFingerprinting fe).1 = Except.ok SuccessResult) ∧
    (∀ (preps : List ExecuteGoalResult) (im : DockerImageName) (df : String)
        (lr br pr : ExecuteGoalResult) (wh : Bool),
        executeDockerBuildE (dockerResolvedEnv preps im df lr br pr wh)
          = Except.ok (executeDockerBuild
              { prepResults := preps, loginResult := lr, buildResult := br,
                pushResult := pr, webhookOk := wh }).1) ∧
    (∀ (preps : List ExecuteGoalResult) (e : String) (df : Except String String)
        (lr br pr : Except String ExecuteGoalResult) (wh : Except String Bool),
        (∀ p ∈ preps, p.code = 0) →
        executeDockerBuildE
          { prepResults := preps.map Except.ok, imageName := Except.error e,
            dockerfile := df, loginResult := lr, buildResult := br,
            pushResult := pr, webhook := wh } = Except.error e) ∧
    (∀ (preps : List ExecuteGoalResult) (im : DockerImageName) (df : String)
        (lr br pr : ExecuteGoalResult) (e : String),
        (∀ p ∈ preps, p.code = 0) → lr.code = 0 → br.code = 0 → pr.code = 0 →
        executeDockerBuildE
          { prepResults := preps.map Except.ok, imageName := Except.ok im,
            dockerfile := Except.ok df, loginResult := Except.ok lr,
            buildResult := Except.ok br, pushResult := Except.ok pr,
            webhook := Except.error e } = Except.error e) := by
  refine ⟨?_, ?_, ?_, ?_, ?_⟩
  · intro te v h1 h2 h3
    simp [executeTag, createTagForStatus, h1, h2, h3]
  swap
  · intro preps im df lr br pr wh
    exact executeDockerBuildE_agrees preps im df lr br pr wh
  swap
  · intro preps e df lr br pr wh hpre
    have hE : runPrepsE (preps.map Except.ok) = Except.ok none := by
      rw [runPrepsE_map_ok preps 0, runPreps_fst_none preps 0 hpre]
    simp [executeDockerBuildE, hE]
  swap
  · intro preps im df lr br pr e hpre hl hb hp
    have hE : runPrepsE (preps.map Except.ok) = Except.ok none := by
      rw [runPrepsE_map_ok preps 0, runPreps_fst_none preps 0 hpre]
    simp [executeDockerBuildE, hE, hl, hb, hp]
  · intro fe hall
    by_cases hz : fe.fingerprinters.length = 0
    · simp [executeFingerprinting, hz]
    · have hcalls : (executeFingerprinting fe).2 = listenerCalls fe := by
        simp [executeFingerprinting, hz]
      rw [hcalls] at hall
      have hallb : (listenerCalls fe).all (fun c =>
          match fe.listenerOutcome c.1 c.2 with
          | Except.ok _ => true
          | Except.error _ => false) = true := by
        rw [List.all_eq_true]
        intro c hc
        rw [hall c hc]
      simp [executeFingerprinting, hz, hallb]

theorem steps_single_result_when_no_rejection_witness :
    executeTag { version := Except.ok "1.0.0", createTag := Except.ok (),
                 createTagReference := Except.ok () } = Except.ok SuccessResult ∧
    (executeFingerprinting
      { fingerprinters :=
          [{ relevant := true, fingerprints := [{ name := "deps", sha := "abc" }] }],
        listeners := [0],
        listenerOutcome := fun _ _ => Except.ok () }).1 = Except.ok SuccessResult ∧
    executeDockerBuildE (dockerResolvedEnv []
        { registry := "registry.example.com", name := "app", version := "1.0.0" }
        "Dockerfile" { code := 0, message := none } { code := 0, message := none }
        { code := 0, message := some "pushed" } true)
      = Except.ok (executeDockerBuild
          { prepResults := [], loginResult := { code := 0, message := none },
            buildResult := { code := 0, message := none },
            pushResult := { code := 0, message := some "pushed" },
            webhookOk := true }).1 ∧
    executeDockerBuildE
      { prepResults := [], imageName := Except.error "version lookup failed",
        dockerfile := Except.ok "Dockerfile",
        loginResult := Except.ok { code := 0, message := none },
        buildResult := Except.ok { code := 0, message := none },
        pushResult := Except.ok { code := 0, message := none },
        webhook := Except.ok true } = Except.error "version lookup failed" ∧
    executeDockerBuildE
      { prepResults := [],
        imageName := Except.ok
          { registry := "registry.example.com", name := "app", version := "1.0.0" },
        dockerfile := Except.ok "Dockerfile",
        loginResult := Except.ok { code := 0, message := none },
        buildResult := Except.ok { code := 0, message := none },
        pushResult := Except.ok { code := 0, message := some "pushed" },
        webhook := Except.error "webhook down" } = Except.error "webhook down" := by
  refine ⟨?_, ?_, ?_, ?_, ?_⟩
  · exact steps_single_result_when_no_rejection.1 _ "1.0.0" rfl rfl rfl
  · exact steps_single_result_when_no_rejection.2.1
      { fingerprinters :=
          [{ relevant := true, fingerprints := [{ name := "deps", sha := "abc" }] }],
        listeners := [0],
        listenerOutcome := fun _ _ => Except.ok () }
      (fun c hc => rfl)
  · exact steps_single_result_when_no_rejection.2.2.1 []
      { registry := "registry.example.com", name := "app", version := "1.0.0" }
      "Dockerfile" { code := 0, message := none } { code := 0, message := none }
      { code := 0, message := some "pushed" } true
  · exact steps_single_result_when_no_rejection.2.2.2.1 [] "version lookup failed"
      (Except.ok "Dockerfile") (Except.ok { code := 0, message := none })
      (Except.ok { code := 0, message := none })
      (Except.ok { code := 0, message := none }) (Except.ok true)
      (by simp)
  · exact steps_single_result_when_no_rejection.2.2.2.2 []
      { registry := "registry.example.com", name := "app", version := "1.0.0" }
      "Dockerfile" { code := 0, message := none } { code := 0, message := none }
      { code := 0, message := some "pushed" } "webhook down"
      (by simp) (by decide) (by decide) (by decide)
